import Mathlib

/-!
Verification development for the plonky3-fibonacci repository.

The development shallowly embeds the Rust sources:
  * `src/keccak-air/src/fibonacci_air.rs` — the `FibonacciAir` AIR, its
    column struct `FibonacciCols`, and the `Borrow`/`BorrowMut` views;
  * `src/keccak-air/examples/prove_goldilocks_poseidon2_fibonacci.rs` —
    the 64-row Fibonacci trace generation and the prove/verify driver;
  * `src/uni-stark/src/proof.rs` — the `Proof` record.
The STARK prover/verifier, PCS, MMCS and Challenger bodies are not part of
the repository sources; where a claim needs them they are modelled from the
specification (each such definition is marked `Modelled from the spec:`).
-/

namespace P3Fib

/-- The Goldilocks prime modulus `2^64 - 2^32 + 1` (the `Val` field of the
example driver). -/
def gp : Nat := 2 ^ 64 - 2 ^ 32 + 1

/-- Source constant `NUM_FIBONACCI_COLS = 3` from `fibonacci_air.rs`. -/
def NUM_FIBONACCI_COLS : Nat := 3

/-- The empty struct `FibonacciAir` from `fibonacci_air.rs`. -/
structure FibonacciAir where

/-- The `BaseAir<F>` impl of `FibonacciAir`: `width()` returns
`NUM_FIBONACCI_COLS` for every field type parameter `F`. -/
def FibonacciAir.width (_F : Type) (_self : FibonacciAir) : Nat :=
  NUM_FIBONACCI_COLS

/-! ### Trace generation (example driver, lines 110-127)

The example builds `values : Vec<Vec<u64>>` with `values[0] = [1,1,2]` and
`values[i] = [values[i-1][1], values[i-1][2], values[i-1][1]+values[i-1][2]]`.
The `u64` addition is modelled with an explicit reduction mod `2^64`. -/

/-- Machine `u64` addition: wraps modulo `2^64`. -/
def u64add (x y : Nat) : Nat := (x + y) % 2 ^ 64

/-- Row `i` of the example's Fibonacci trace (`values[i]` in the driver). -/
def traceRow : Nat → List Nat
  | 0 => [1, 1, 2]
  | i + 1 =>
    let p := traceRow i
    [p.getD 1 0, p.getD 2 0, u64add (p.getD 1 0) (p.getD 2 0)]

/-- The first `n` rows of the example's trace (`values` after the loop). -/
def traceRows (n : Nat) : List (List Nat) := (List.range n).map traceRow

/-- Entry `j` of row `i` of the trace (`values[i][j]`). -/
def traceVal (i j : Nat) : Nat := (traceRow i).getD j 0

/-- Source constant `NUM_FIBONACCI_ROWS = 64` from the example driver. -/
def NUM_FIBONACCI_ROWS : Nat := 64

/-- `Goldilocks::from_canonical_u64`: the canonical representative of a
`u64` in the Goldilocks field. -/
def fromCanonicalU64 (x : Nat) : Nat := x % gp

/-- The `RowMajorMatrix` struct of the example: a flat row-major list of
field values together with the width. -/
structure RowMajorMatrix where
  values : List Nat
  width : Nat

/-- The 64-row, width-3 trace matrix the example passes to `prove`: the
rows are flattened and each entry mapped through `from_canonical_u64`. -/
def fibTraceMatrix : RowMajorMatrix :=
  ⟨((traceRows NUM_FIBONACCI_ROWS).flatten).map fromCanonicalU64,
   NUM_FIBONACCI_COLS⟩

/-! ### Borrow / BorrowMut views (fibonacci_air.rs, lines 23-51)

`FibonacciCols<T>` is a `repr(C)` struct of three `T` fields, and the
`Borrow`/`BorrowMut` impls reinterpret a slice `[T]` through
`align_to::<FibonacciCols<T>>`.  Under `repr(C)` the struct is three
consecutive `T` values and its alignment equals `T`'s, so the decomposition
has an empty head, a middle that groups each three consecutive elements
into one struct, and a tail of fewer than three leftover elements. -/

/-- The column struct `FibonacciCols<T>` (`repr(C)`, fields `a`, `b`, `c`). -/
structure FibonacciCols (T : Type) where
  a : T
  b : T
  c : T
  deriving DecidableEq, Repr

/-- Middle component of `align_to::<FibonacciCols<T>>` on a slice: each
group of three consecutive elements becomes one struct value. -/
def fibAlignMid {T : Type} : List T → List (FibonacciCols T)
  | a :: b :: c :: rest => ⟨a, b, c⟩ :: fibAlignMid rest
  | _ => []

/-- Tail component of `align_to::<FibonacciCols<T>>` on a slice: the
leftover elements (fewer than three) after the grouped middle. -/
def fibAlignTail {T : Type} : List T → List T
  | _ :: _ :: _ :: rest => fibAlignTail rest
  | rest => rest

/-- The full `align_to::<FibonacciCols<T>>` decomposition of a slice:
empty head, grouped middle, leftover tail. -/
def fibAlignTo {T : Type} (s : List T) :
    List T × List (FibonacciCols T) × List T :=
  ([], fibAlignMid s, fibAlignTail s)

/-- The `Borrow<FibonacciCols<T>>` impl for `[T]`: `align_to` and return
the first struct of the middle component (`&shorts[0]`). -/
def borrowFib {T : Type} (s : List T) : Option (FibonacciCols T) :=
  ((fibAlignTo s).2.1).head?

/-- The memory effect of writing a `FibonacciCols<T>` value through the
`BorrowMut<FibonacciCols<T>>` view (`&mut shorts[0]`): the first struct of
the middle component is replaced and the slice re-assembled. -/
def borrowMutWrite {T : Type} (s : List T) (v : FibonacciCols T) : List T :=
  (fibAlignTo s).1 ++
    (((fibAlignTo s).2.1).modifyHead (fun _ => v)).flatMap
      (fun w => [w.a, w.b, w.c]) ++
    (fibAlignTo s).2.2

/-! ### Symbolic AIR builder and `FibonacciAir::eval` (fibonacci_air.rs, lines 53-75)

`eval` is transcribed over a symbolic constraint builder.  A variable names
one of the six row entries `eval` can read (`main.row_slice(0)` and
`main.row_slice(1)`, each borrowed as `FibonacciCols`).  The builder
records every expression passed to `assert_zero`; `when_first_row()` /
`when_transition()` wrap the builder so that `assert_zero(e)` records
`condition * e` with the corresponding selector, and `assert_eq(x, y)` is
`assert_zero(x - y)` — exactly as in the `AirBuilder` trait the source
uses.  The expression language also has a public-values accessor `pubVal`
so that "never reads public values" is expressible; `eval` never produces
it. -/

/-- A row variable of `FibonacciAir::eval`: `local`/`next` row, column `a`,
`b` or `c`. -/
inductive FibVar where
  | la | lb | lc | na | nb | nc
  deriving DecidableEq, Repr

/-- Symbolic constraint expressions over the builder's variables,
selectors, constants and ring operations. -/
inductive AirExpr where
  | var : FibVar → AirExpr
  | isFirstRow : AirExpr
  | isTransition : AirExpr
  | pubVal : Nat → AirExpr
  | const : Nat → AirExpr
  | add : AirExpr → AirExpr → AirExpr
  | sub : AirExpr → AirExpr → AirExpr
  | mul : AirExpr → AirExpr → AirExpr
  deriving DecidableEq, Repr

/-- The symbolic builder state: the list of asserted constraints, in
assertion order. -/
structure AirBuilderState where
  constraints : List AirExpr
  deriving DecidableEq, Repr

/-- `builder.assert_zero(e)`: record the constraint `e`. -/
def assertZero (st : AirBuilderState) (e : AirExpr) : AirBuilderState :=
  ⟨st.constraints ++ [e]⟩

/-- `assert_zero` on a filtered builder (`when_first_row()` /
`when_transition()`): the condition multiplies the asserted expression. -/
def filteredAssertZero (st : AirBuilderState) (cond e : AirExpr) :
    AirBuilderState :=
  assertZero st (AirExpr.mul cond e)

/-- `assert_eq(x, y)` on a filtered builder: `assert_zero(x - y)` under the
filter condition. -/
def filteredAssertEq (st : AirBuilderState) (cond x y : AirExpr) :
    AirBuilderState :=
  filteredAssertZero st cond (AirExpr.sub x y)

/-- The symbolic `local` row of `eval`: `main.row_slice(0).borrow()`,
through the `Borrow` view on the three-variable slice. -/
def evalLocalRow : FibonacciCols AirExpr :=
  (borrowFib [AirExpr.var .la, AirExpr.var .lb, AirExpr.var .lc]).getD
    ⟨AirExpr.const 0, AirExpr.const 0, AirExpr.const 0⟩

/-- The symbolic `next` row of `eval`: `main.row_slice(1).borrow()`. -/
def evalNextRow : FibonacciCols AirExpr :=
  (borrowFib [AirExpr.var .na, AirExpr.var .nb, AirExpr.var .nc]).getD
    ⟨AirExpr.const 0, AirExpr.const 0, AirExpr.const 0⟩

/-- `FibonacciAir::eval` transcribed over the symbolic builder:
`assert_zero(local.a + local.b - local.c)`;
`when_first_row().assert_eq(one, local.a)`;
`when_first_row().assert_eq(one, local.b)`;
`when_transition().assert_eq(next.a, local.b)`;
`when_transition().assert_eq(next.b, local.c)`. -/
def FibonacciAir.eval (st : AirBuilderState) : AirBuilderState :=
  let lo := evalLocalRow
  let nx := evalNextRow
  let st := assertZero st (AirExpr.sub (AirExpr.add lo.a lo.b) lo.c)
  let one := AirExpr.const 1
  let st := filteredAssertEq st AirExpr.isFirstRow one lo.a
  let st := filteredAssertEq st AirExpr.isFirstRow one lo.b
  let st := filteredAssertEq st AirExpr.isTransition nx.a lo.b
  let st := filteredAssertEq st AirExpr.isTransition nx.b lo.c
  st

/-- The constraint list `FibonacciAir::eval` asserts, starting from an
empty builder. -/
def fibConstraints : List AirExpr := (FibonacciAir.eval ⟨[]⟩).constraints

/-- Field semantics of a symbolic expression over `ZMod gp`: the selectors
are `1` on the rows their predicate selects and `0` elsewhere, `asg` gives
the six row entries and `pv` the public values. -/
def AirExpr.evalZ (first trans : Bool) (asg : FibVar → ZMod gp)
    (pv : Nat → ZMod gp) : AirExpr → ZMod gp
  | .var v => asg v
  | .isFirstRow => if first then 1 else 0
  | .isTransition => if trans then 1 else 0
  | .pubVal i => pv i
  | .const n => (n : ZMod gp)
  | .add x y => x.evalZ first trans asg pv + y.evalZ first trans asg pv
  | .sub x y => x.evalZ first trans asg pv - y.evalZ first trans asg pv
  | .mul x y => x.evalZ first trans asg pv * y.evalZ first trans asg pv

/-- Whether a symbolic expression reads a public value. -/
def AirExpr.readsPublic : AirExpr → Bool
  | .pubVal _ => true
  | .add x y => x.readsPublic || y.readsPublic
  | .sub x y => x.readsPublic || y.readsPublic
  | .mul x y => x.readsPublic || y.readsPublic
  | _ => false

/-! ### Satisfaction of the eval constraints by the example trace -/

/-- Assignment of the six row variables from rows `i` and `i+1` (cyclically,
as `row_slice(1)` wraps on the last row) of the example's trace matrix,
cast into the Goldilocks field. -/
def fibAssignment (i : Nat) : FibVar → ZMod gp
  | .la => (fromCanonicalU64 (traceVal i 0) : Nat)
  | .lb => (fromCanonicalU64 (traceVal i 1) : Nat)
  | .lc => (fromCanonicalU64 (traceVal i 2) : Nat)
  | .na => (fromCanonicalU64 (traceVal ((i + 1) % NUM_FIBONACCI_ROWS) 0) : Nat)
  | .nb => (fromCanonicalU64 (traceVal ((i + 1) % NUM_FIBONACCI_ROWS) 1) : Nat)
  | .nc => (fromCanonicalU64 (traceVal ((i + 1) % NUM_FIBONACCI_ROWS) 2) : Nat)

/-- Every constraint asserted by `FibonacciAir::eval` evaluates to zero at
row `i` of the example trace: the first-row selector is on exactly at row
0, the transition selector on every non-last row, and the public values
are the example's empty vector (reads default to 0). -/
def evalConstraintsHoldAt (i : Nat) : Prop :=
  ∀ e ∈ fibConstraints,
    AirExpr.evalZ (i == 0) (decide (i < NUM_FIBONACCI_ROWS - 1))
      (fibAssignment i) (fun _ => 0) e = 0

instance (i : Nat) : Decidable (evalConstraintsHoldAt i) := by
  unfold evalConstraintsHoldAt; infer_instance

/-! ### The Proof record (uni-stark/src/proof.rs)

`Proof`, `Commitments` and `OpenedValues` are transcribed generically over
the configuration's associated types: `Com` (the PCS commitment),
`Challenge` (the extension field) and `PcsProof` (the PCS opening proof). -/

/-- The `Commitments` struct: the trace commitment and the quotient-chunks
commitment. -/
structure Commitments (Com : Type) where
  trace : Com
  quotient_chunks : Com
  deriving DecidableEq, Repr

/-- The `OpenedValues` struct: trace openings at `zeta` (local) and
`zeta * g` (next) and the quotient-chunk openings. -/
structure OpenedValues (Challenge : Type) where
  trace_local : List Challenge
  trace_next : List Challenge
  quotient_chunks : List (List Challenge)
  deriving DecidableEq, Repr

/-- The `Proof` struct: commitments, opened values, the PCS-specific
opening proof, and the log2 of the trace degree. -/
structure Proof (Com Challenge PcsProof : Type) where
  commitments : Commitments Com
  opened_values : OpenedValues Challenge
  opening_proof : PcsProof
  degree_bits : Nat
  deriving DecidableEq, Repr

/-! ### Proof serialization (claim C6)

Modelled from the spec: the serde `Serialize`/`Deserialize` derivations on
`Proof` and the JSON wiring of the example driver are not part of the
repository's `src/` files.  Following §6 of the spec — "a `Proof` is
serialized as a self-describing structured record (commitments as
fixed-size digest byte arrays; opened values as field-element sequences;
opening proof as nested round/query records) ... no required canonical
binary layout beyond round-trip fidelity" — the model serializes, field by
field in declaration order, a concrete instantiation (digests as byte
lists, field elements as numbers, the opening proof as a nested record
list) into a length-prefixed token stream. -/

/-- The concrete `Proof` instantiation the serialization model uses. -/
abbrev ConcreteProof := Proof (List Nat) Nat (List (List Nat))

/-- Serialize a flat sequence: length prefix, then the elements. -/
def encSeq (l : List Nat) : List Nat := l.length :: l

/-- Serialize a nested sequence of records: length prefix, then each
record serialized with `encSeq`. -/
def encNested (ll : List (List Nat)) : List Nat :=
  ll.length :: ll.flatMap encSeq

/-- Serialize a `ConcreteProof`, field by field in declaration order. -/
def encodeProof (p : ConcreteProof) : List Nat :=
  encSeq p.commitments.trace ++
  encSeq p.commitments.quotient_chunks ++
  encSeq p.opened_values.trace_local ++
  encSeq p.opened_values.trace_next ++
  encNested p.opened_values.quotient_chunks ++
  encNested p.opening_proof ++
  [p.degree_bits]

/-- Parse one length-prefixed flat sequence; return it and the rest of the
stream. -/
def decSeq : List Nat → Option (List Nat × List Nat)
  | [] => none
  | n :: rest =>
    if n ≤ rest.length then some (rest.take n, rest.drop n) else none

/-- Parse `k` length-prefixed flat sequences. -/
def decSeqs : Nat → List Nat → Option (List (List Nat) × List Nat)
  | 0, s => some ([], s)
  | k + 1, s =>
    match decSeq s with
    | none => none
    | some (l, s1) =>
      match decSeqs k s1 with
      | none => none
      | some (ls, s2) => some (l :: ls, s2)

/-- Parse one nested sequence of records. -/
def decNested : List Nat → Option (List (List Nat) × List Nat)
  | [] => none
  | k :: rest => decSeqs k rest

/-- Deserialize a `ConcreteProof`; `none` on a malformed stream. -/
def decodeProof (s : List Nat) : Option ConcreteProof := do
  let (tr, s) ← decSeq s
  let (qc, s) ← decSeq s
  let (tl, s) ← decSeq s
  let (tn, s) ← decSeq s
  let (qv, s) ← decNested s
  let (op, s) ← decNested s
  match s with
  | [d] => some ⟨⟨tr, qc⟩, ⟨tl, tn, qv⟩, op, d⟩
  | _ => none

end P3Fib


namespace P3Fib

/-! ### Modelled STARK pipeline (claims C1, C2, C10)

The `uni-stark` crate of the repository contains only `proof.rs`; the
bodies of `prove`, `verify`, the `TwoAdicFriPcs`, the MMCS and the
`DuplexChallenger` are not under `src/`.  The definitions of this section
are therefore modelled from the spec (§4.2-§4.4), specialized as in the
example driver: base field Goldilocks, challenge field its degree-2
binomial extension, trace width `NUM_FIBONACCI_COLS`.  The PCS is an
idealized perfectly binding commitment scheme: the digest of a committed
matrix is the matrix data itself (the hasher is an external pluggable
primitive per §2/§6; the model plugs the identity), the opening proof is
the committed data, and opening verification recomputes the commitment
and the claimed evaluations by interpolation.  `FriConfig`'s parameters
(`log_blowup`, `num_queries`, `proof_of_work_bits`) tune the soundness
error of the real FRI-based PCS and have no counterpart in the idealized
scheme. -/

/-- Goldilocks addition on canonical representatives. -/
def fAdd (x y : Nat) : Nat := (x + y) % gp

/-- Goldilocks subtraction on canonical representatives. -/
def fSub (x y : Nat) : Nat := (x + (gp - y % gp)) % gp

/-- Goldilocks multiplication on canonical representatives. -/
def fMul (x y : Nat) : Nat := x * y % gp

/-- Binary modular exponentiation in Goldilocks, with explicit fuel (the
exponent halves each step, so fuel 64 covers every exponent below `2^64`). -/
def powModAux : Nat → Nat → Nat → Nat
  | 0, _, _ => 1 % gp
  | fuel + 1, b, e =>
    if e = 0 then 1 % gp
    else
      let r := powModAux fuel (b * b % gp) (e / 2)
      if e % 2 = 1 then r * b % gp else r

/-- Goldilocks exponentiation `b ^ e` for `e < 2^64`. -/
def fPow (b e : Nat) : Nat := powModAux 64 (b % gp) e

/-- Goldilocks inverse by Fermat's little theorem. -/
def fInv (x : Nat) : Nat := fPow x (gp - 2)

/-- The degree-2 binomial extension field `Challenge` of the example
(`BinomialExtensionField<Goldilocks, 2>`, `x^2 = 7`): pairs of base
elements. -/
abbrev EF := Nat × Nat

/-- Extension-field zero. -/
def eZero : EF := (0, 0)

/-- Extension-field one. -/
def eOne : EF := (1, 0)

/-- Extension-field addition. -/
def eAdd (x y : EF) : EF := (fAdd x.1 y.1, fAdd x.2 y.2)

/-- Extension-field subtraction. -/
def eSub (x y : EF) : EF := (fSub x.1 y.1, fSub x.2 y.2)

/-- Extension-field multiplication (`(a + b t)(c + d t)` with `t^2 = 7`). -/
def eMul (x y : EF) : EF :=
  (fAdd (fMul x.1 y.1) (fMul 7 (fMul x.2 y.2)),
   fAdd (fMul x.1 y.2) (fMul x.2 y.1))

/-- Embedding of the base field into the extension. -/
def eOfF (x : Nat) : EF := (x % gp, 0)

/-- Extension-field exponentiation with explicit fuel. -/
def ePowAux : Nat → EF → Nat → EF
  | 0, _, _ => eOne
  | fuel + 1, b, e =>
    if e = 0 then eOne
    else
      let r := ePowAux fuel (eMul b b) (e / 2)
      if e % 2 = 1 then eMul r b else r

/-- Extension-field exponentiation `b ^ e` for `e < 2^64`. -/
def ePow (b : EF) (e : Nat) : EF := ePowAux 64 b e

/-- Polynomials over the extension field, as little-endian coefficient
lists. -/
abbrev PolyE := List EF

/-- Polynomial addition. -/
def pAdd : PolyE → PolyE → PolyE
  | [], q => q
  | p, [] => p
  | a :: p, b :: q => eAdd a b :: pAdd p q

/-- Scaling of a polynomial by a field element. -/
def pScale (c : EF) (p : PolyE) : PolyE := p.map (eMul c)

/-- Polynomial multiplication. -/
def pMul : PolyE → PolyE → PolyE
  | [], _ => []
  | a :: p, q => pAdd (pScale a q) (eZero :: pMul p q)

/-- Polynomial subtraction. -/
def pSub (p q : PolyE) : PolyE := pAdd p (pScale (eSub eZero eOne) q)

/-- Horner evaluation of a polynomial at an extension point. -/
def pEval (p : PolyE) (x : EF) : EF :=
  p.foldr (fun c acc => eAdd c (eMul x acc)) eZero

/-- Horner evaluation of a base-coefficient polynomial at a base point. -/
def fEvalPoly (p : List Nat) (x : Nat) : Nat :=
  p.foldr (fun c acc => fAdd c (fMul x acc)) 0

/-- Modelled from the spec: the generator of the order-`n` two-adic
evaluation domain (§2 "a distinguished two-adic subgroup"), obtained from
the Goldilocks multiplicative generator 7. -/
def domainGen (n : Nat) : Nat := fPow 7 ((gp - 1) / n)

/-- Modelled from the spec (§4.2 `commit`): interpolate a committed column
over the order-`n` domain — the inverse DFT, `coeff_j = n⁻¹ · Σ_i v_i
ω^(-i·j)` computed as a Horner evaluation at `ω^(-j)`. -/
def interpolateCol (n : Nat) (col : List Nat) : List Nat :=
  (List.range n).map (fun j =>
    fMul (fInv n) (fEvalPoly col (fPow (fInv (domainGen n)) j)))

/-- Height of a row-major matrix. -/
def matrixHeight (m : RowMajorMatrix) : Nat := m.values.length / m.width

/-- Column `j` of a row-major matrix. -/
def matrixCol (m : RowMajorMatrix) (j : Nat) : List Nat :=
  (List.range (matrixHeight m)).map (fun i => m.values.getD (i * m.width + j) 0)

/-- Modelled from the spec (§4.3): the Challenger, a stateful transcript
whose contract is observe-then-sample determinism.  The duplex sponge over
the external Poseidon2 permutation is replaced by a deterministic
accumulator hash of the observed sequence; each sample is absorbed back
(duplex behaviour). -/
structure Challenger where
  state : List Nat

/-- A fresh Challenger (the example's `Challenger::new(perm)`). -/
def Challenger.new : Challenger := ⟨[]⟩

/-- `observe`: absorb a sequence of base-field elements. -/
def observe (ch : Challenger) (xs : List Nat) : Challenger := ⟨ch.state ++ xs⟩

/-- The deterministic accumulator standing in for the sponge output. -/
def transcriptHash (l : List Nat) : Nat :=
  l.foldl (fun acc x => fAdd (fMul acc 31) (fAdd x 1)) 7

/-- Sample one base-field element and absorb it back. -/
def sampleF (ch : Challenger) : Nat × Challenger :=
  let v := transcriptHash ch.state
  (v, ⟨ch.state ++ [v]⟩)

/-- Sample one challenge (extension-field) element. -/
def sampleEF (ch : Challenger) : EF × Challenger :=
  let p1 := sampleF ch
  let p2 := sampleF p1.2
  ((p1.1, p2.1), p2.2)

/-- Modelled from the spec (§4.4): the first-row selector polynomial
`Z_H(X)/(X-1) = 1 + X + ... + X^(n-1)`, vanishing on every domain row but
the first. -/
def selFirstPoly (n : Nat) : PolyE := List.replicate n eOne

/-- Modelled from the spec (§4.4): the transition selector polynomial
`X - g^(n-1)`, vanishing exactly on the last domain row. -/
def selTransPoly (n : Nat) : PolyE :=
  [eSub eZero (eOfF (fPow (domainGen n) (n - 1))), eOne]

/-- Evaluation of a symbolic constraint into the polynomial ring: row
variables become the interpolated (or shifted) column polynomials,
selectors the selector polynomials — the prover's "evaluate the AIR's
constraint relation symbolically" of §4.4 step 2. -/
def AirExpr.evalP (n : Nat) (asg : FibVar → PolyE) (pv : Nat → Nat) :
    AirExpr → PolyE
  | .var v => asg v
  | .isFirstRow => selFirstPoly n
  | .isTransition => selTransPoly n
  | .pubVal i => [eOfF (pv i)]
  | .const k => [eOfF k]
  | .add x y => pAdd (x.evalP n asg pv) (y.evalP n asg pv)
  | .sub x y => pSub (x.evalP n asg pv) (y.evalP n asg pv)
  | .mul x y => pMul (x.evalP n asg pv) (y.evalP n asg pv)

/-- Evaluation of a symbolic constraint at one extension point (the
verifier's recomputation of the constraint relation at `zeta`). -/
def AirExpr.evalPt (first trans : EF) (asg : FibVar → EF) (pv : Nat → Nat) :
    AirExpr → EF
  | .var v => asg v
  | .isFirstRow => first
  | .isTransition => trans
  | .pubVal i => eOfF (pv i)
  | .const k => eOfF k
  | .add x y => eAdd (x.evalPt first trans asg pv) (y.evalPt first trans asg pv)
  | .sub x y => eSub (x.evalPt first trans asg pv) (y.evalPt first trans asg pv)
  | .mul x y => eMul (x.evalPt first trans asg pv) (y.evalPt first trans asg pv)

/-- Random linear combination of constraint values with powers of the
mixing challenge (Horner form). -/
def mixE (alpha : EF) (vs : List EF) : EF :=
  vs.foldr (fun v acc => eAdd v (eMul alpha acc)) eZero

/-- Random linear combination of constraint polynomials with powers of the
mixing challenge (Horner form). -/
def mixP (alpha : EF) (ps : List PolyE) : PolyE :=
  ps.foldr (fun p acc => pAdd p (pScale alpha acc)) []

/-- Scale coefficients to turn `T(X)` into `T(gX)` (the next-row shift). -/
def shiftPoly (g : Nat) (p : PolyE) : PolyE :=
  (List.range p.length).map (fun i => eMul (eOfF (fPow g i)) (p.getD i eZero))

/-- Base-2 logarithm with explicit fuel (`log2_ceil_usize` on the example's
power-of-two height). -/
def log2Fuel : Nat → Nat → Nat
  | 0, _ => 0
  | f + 1, n => if 2 ≤ n then log2Fuel f (n / 2) + 1 else 0

/-- Base-2 logarithm for numbers below `2^64`. -/
def natLog2 (n : Nat) : Nat := log2Fuel 64 n

end P3Fib

namespace P3Fib

/-- The error taxonomy of §7 surfaced by the modelled verifier:
`InvalidProofShape` (wrong counts), `OodEvaluationMismatch` (the algebraic
identity at `zeta` fails), `RootMismatch` (a commitment/opening
verification failure). -/
inductive VerificationError where
  | InvalidProofShape
  | OodEvaluationMismatch
  | RootMismatch
  deriving DecidableEq, Repr

/-- The modelled proof type of the example instantiation: commitments are
idealized digests (the committed data), challenges live in `EF`, and the
PCS opening proof carries the committed trace and quotient data. -/
abbrev ProofE := Proof (List Nat) EF (List Nat × List Nat)

/-- Modelled from the spec (§4.2 / §4.1): the idealized PCS/MMCS
commitment — the digest of a committed matrix is its data (the external
hasher is plugged with the identity, making the commitment perfectly
binding). -/
def pcsCommit (m : RowMajorMatrix) : List Nat := m.values

/-- The polynomial assignment of the six row variables: interpolated
column polynomials for the local row, their `g`-shifts for the next row. -/
def proverAsg (g : Nat) (ta tb tc : PolyE) : FibVar → PolyE
  | .la => ta
  | .lb => tb
  | .lc => tc
  | .na => shiftPoly g ta
  | .nb => shiftPoly g tb
  | .nc => shiftPoly g tc

/-- The list of constraint-composition summand polynomials: each AIR
constraint evaluated into the polynomial ring. -/
def constraintPolys (air : List AirExpr) (n : Nat) (asg : FibVar → PolyE)
    (pv : Nat → Nat) : List PolyE :=
  air.map (AirExpr.evalP n asg pv)

/-- The list of constraint values at the out-of-domain point: each AIR
constraint evaluated at the opened values. -/
def constraintVals (air : List AirExpr) (selF selT : EF) (asg : FibVar → EF)
    (pv : Nat → Nat) : List EF :=
  air.map (AirExpr.evalPt selF selT asg pv)

/-- Modelled from the spec (§4.4 `prove`, steps 1-5; the `p3_uni_stark`
prover is not under `src/`): commit the trace and observe it; draw the
constraint-mixing challenge; build the constraint-composition polynomial
from the AIR's symbolic constraints (selector polynomials realize the
first-row/transition predicates) and divide by the vanishing polynomial
`X^n - 1` of the base domain to obtain the quotient (one chunk, as the
example's quotient degree is 1); commit and observe the quotient; draw
`zeta`; open the trace at `zeta` and `zeta·g` and the quotient at `zeta`;
assemble the `Proof`.  The public values are available to the constraint
evaluator (the Fibonacci AIR reads none). -/
def prove (air : List AirExpr) (trace : RowMajorMatrix)
    (publicValues : List Nat) : ProofE :=
  let n := matrixHeight trace
  let g := domainGen n
  let traceCommit := pcsCommit trace
  let ch := observe Challenger.new traceCommit
  let s1 := sampleEF ch
  let alpha := s1.1
  let ta := (interpolateCol n (matrixCol trace 0)).map eOfF
  let tb := (interpolateCol n (matrixCol trace 1)).map eOfF
  let tc := (interpolateCol n (matrixCol trace 2)).map eOfF
  let pv := fun i => publicValues.getD i 0
  let comp := mixP alpha (constraintPolys air n (proverAsg g ta tb tc) pv)
  let quotient := comp.drop n
  let quotientCommit := quotient.flatMap (fun c => [c.1, c.2])
  let ch2 := observe s1.2 quotientCommit
  let zeta := (sampleEF ch2).1
  let zetaNext := eMul (eOfF g) zeta
  { commitments := ⟨traceCommit, quotientCommit⟩
    opened_values :=
      ⟨[pEval ta zeta, pEval tb zeta, pEval tc zeta],
       [pEval ta zetaNext, pEval tb zetaNext, pEval tc zetaNext],
       [[pEval quotient zeta]]⟩
    opening_proof := (trace.values, quotientCommit)
    degree_bits := natLog2 n }

/-- Shape check of §7 `InvalidProofShape`: the opened-value counts must
match the AIR width and the single quotient chunk. -/
def shapeOk (width : Nat) (pf : ProofE) : Bool :=
  pf.opened_values.trace_local.length == width &&
  pf.opened_values.trace_next.length == width &&
  pf.opened_values.quotient_chunks.length == 1 &&
  (pf.opened_values.quotient_chunks.getD 0 []).length == 1

/-- The point assignment of the six row variables from the proof's opened
values. -/
def openedAsg (pf : ProofE) : FibVar → EF
  | .la => pf.opened_values.trace_local.getD 0 eZero
  | .lb => pf.opened_values.trace_local.getD 1 eZero
  | .lc => pf.opened_values.trace_local.getD 2 eZero
  | .na => pf.opened_values.trace_next.getD 0 eZero
  | .nb => pf.opened_values.trace_next.getD 1 eZero
  | .nc => pf.opened_values.trace_next.getD 2 eZero

/-- Modelled from the spec (§4.4 `verify`): replay the prover's
observe/sample sequence from the proof's commitments, recompute the
constraint relation at `zeta` from `opened_values`, and check it equals
the claimed quotient value times the vanishing-polynomial value
`zeta^n - 1`. -/
def oodOk (air : List AirExpr) (pf : ProofE) (publicValues : List Nat) : Bool :=
  let n := 2 ^ pf.degree_bits
  let g := domainGen n
  let ch := observe Challenger.new pf.commitments.trace
  let s1 := sampleEF ch
  let alpha := s1.1
  let ch2 := observe s1.2 pf.commitments.quotient_chunks
  let zeta := (sampleEF ch2).1
  let selF := pEval (selFirstPoly n) zeta
  let selT := eSub zeta (eOfF (fPow g (n - 1)))
  let pv := fun i => publicValues.getD i 0
  let folded := mixE alpha (constraintVals air selF selT (openedAsg pf) pv)
  let qz := (pf.opened_values.quotient_chunks.getD 0 []).getD 0 eZero
  folded == eMul qz (eSub (ePow zeta n) eOne)

/-- Reassemble extension elements from a flattened base-field list. -/
def unflattenEF : List Nat → List EF
  | a :: b :: rest => (a, b) :: unflattenEF rest
  | _ => []

/-- Modelled from the spec (§4.2 opening verification, after the
commitment binding check): recompute the claimed opened values from the
committed data by interpolation and evaluation at `zeta` and `zeta·g`,
and compare them with the proof's `opened_values`. -/
def pcsOpeningsOk (width : Nat) (pf : ProofE) : Bool :=
  let n := 2 ^ pf.degree_bits
  let g := domainGen n
  let ch := observe Challenger.new pf.commitments.trace
  let s1 := sampleEF ch
  let ch2 := observe s1.2 pf.commitments.quotient_chunks
  let zeta := (sampleEF ch2).1
  let zetaNext := eMul (eOfF g) zeta
  let tm : RowMajorMatrix := ⟨pf.opening_proof.1, width⟩
  let cols := (List.range width).map
    (fun j => (interpolateCol n (matrixCol tm j)).map eOfF)
  let q := unflattenEF pf.opening_proof.2
  (cols.map (fun p => pEval p zeta) == pf.opened_values.trace_local) &&
  (cols.map (fun p => pEval p zetaNext) == pf.opened_values.trace_next) &&
  ([[pEval q zeta]] == pf.opened_values.quotient_chunks)

/-- Modelled from the spec (§4.2/§4.1 `verify_batch`): the idealized PCS
batch verification — recompute each commitment from the opening proof's
data and compare (`RootMismatch` on divergence), then check the claimed
opened values against recomputation. -/
def pcsVerify (width : Nat) (pf : ProofE) : Except VerificationError Unit :=
  if pf.opening_proof.1 == pf.commitments.trace then
    if pf.opening_proof.2 == pf.commitments.quotient_chunks then
      if pcsOpeningsOk width pf then Except.ok ()
      else Except.error VerificationError.RootMismatch
    else Except.error VerificationError.RootMismatch
  else Except.error VerificationError.RootMismatch

/-- Modelled from the spec (§4.4 `verify`): shape check, transcript
replay with the out-of-domain algebraic identity, then PCS batch
verification; terminal `Ok` or a specific error. -/
def verify (air : List AirExpr) (width : Nat) (pf : ProofE)
    (publicValues : List Nat) : Except VerificationError Unit :=
  if shapeOk width pf then
    if oodOk air pf publicValues then
      pcsVerify width pf
    else Except.error VerificationError.OodEvaluationMismatch
  else Except.error VerificationError.InvalidProofShape

/-- Corruption of the committed trace data consumed by verification
(claim C2): the value of column `b` of row 10 — flat row-major index
`10 * NUM_FIBONACCI_COLS + 1 = 31` — is replaced by `x`. -/
def corruptRow10B (pf : ProofE) (x : Nat) : ProofE :=
  { pf with opening_proof :=
      (pf.opening_proof.1.set (10 * NUM_FIBONACCI_COLS + 1) x,
       pf.opening_proof.2) }

end P3Fib

namespace P3Fib

/-! ### Round-trip helper lemmas for the serialization model -/

/-- Parsing a serialized flat sequence returns it and the rest of the
stream. -/
theorem decSeq_encSeq (l t : List Nat) : decSeq (encSeq l ++ t) = some (l, t) := by
  simp [encSeq, decSeq, List.take_left, List.drop_left]

/-- Parsing the serialization of `ll` record by record returns `ll` and
the rest of the stream. -/
theorem decSeqs_enc (ll : List (List Nat)) (t : List Nat) :
    decSeqs ll.length (ll.flatMap encSeq ++ t) = some (ll, t) := by
  induction ll generalizing t with
  | nil => simp [decSeqs]
  | cons h tl ih =>
    simp [decSeqs, List.append_assoc, decSeq_encSeq, ih]

/-- Parsing a serialized nested sequence returns it and the rest of the
stream. -/
theorem decNested_enc (ll : List (List Nat)) (t : List Nat) :
    decNested (encNested ll ++ t) = some (ll, t) := by
  simp [encNested, decNested, decSeqs_enc]

end P3Fib

namespace P3Fib

/-- C3: the constraint relation asserted by `FibonacciAir::eval` is exactly
the five constraints of the spec — for every row `local.a + local.b -
local.c = 0`, on the first row `local.a = 1` and `local.b = 1`, on every
transition row `next.a = local.b` and `next.b = local.c` — and `eval`
asserts no other constraint: the recorded list is exactly these five
(filters realized as selector factors), and over the Goldilocks field they
hold simultaneously iff the five spec equations hold. -/
theorem C3_eval_asserts_exactly_five_constraints :
    fibConstraints =
      [AirExpr.sub (AirExpr.add (AirExpr.var .la) (AirExpr.var .lb)) (AirExpr.var .lc),
       AirExpr.mul AirExpr.isFirstRow (AirExpr.sub (AirExpr.const 1) (AirExpr.var .la)),
       AirExpr.mul AirExpr.isFirstRow (AirExpr.sub (AirExpr.const 1) (AirExpr.var .lb)),
       AirExpr.mul AirExpr.isTransition (AirExpr.sub (AirExpr.var .na) (AirExpr.var .lb)),
       AirExpr.mul AirExpr.isTransition (AirExpr.sub (AirExpr.var .nb) (AirExpr.var .lc))]
    ∧ ∀ (first trans : Bool) (asg : FibVar → ZMod gp) (pv : Nat → ZMod gp),
        (∀ e ∈ fibConstraints, AirExpr.evalZ first trans asg pv e = 0) ↔
          (asg .la + asg .lb = asg .lc
            ∧ (first = true → asg .la = 1 ∧ asg .lb = 1)
            ∧ (trans = true → asg .na = asg .lb ∧ asg .nb = asg .lc)) := by
  refine ⟨rfl, ?_⟩
  intro first trans asg pv
  have hc : fibConstraints =
      [AirExpr.sub (AirExpr.add (AirExpr.var .la) (AirExpr.var .lb)) (AirExpr.var .lc),
       AirExpr.mul AirExpr.isFirstRow (AirExpr.sub (AirExpr.const 1) (AirExpr.var .la)),
       AirExpr.mul AirExpr.isFirstRow (AirExpr.sub (AirExpr.const 1) (AirExpr.var .lb)),
       AirExpr.mul AirExpr.isTransition (AirExpr.sub (AirExpr.var .na) (AirExpr.var .lb)),
       AirExpr.mul AirExpr.isTransition (AirExpr.sub (AirExpr.var .nb) (AirExpr.var .lc))] := rfl
  rw [hc]
  cases first <;> cases trans <;>
    simp [AirExpr.evalZ, @eq_comm (ZMod gp) 0, sub_eq_zero, @eq_comm (ZMod gp) 1,
      and_assoc]

/-- C4: named column access through the `Borrow<FibonacciCols<T>>` /
`BorrowMut<FibonacciCols<T>>` impls is the fixed index mapping `a ↦ 0`,
`b ↦ 1`, `c ↦ 2`: on a slice of exactly three elements, the `align_to`
decomposition has an empty head and tail and a single struct, `borrow`
yields the view `⟨s[0], s[1], s[2]⟩`, and writing a struct value through
the mutable view stores its fields back at positions 0, 1, 2. -/
theorem C4_borrow_is_fixed_index_mapping :
    ∀ (T : Type) (x y z : T) (v : FibonacciCols T),
      fibAlignTo [x, y, z] = ([], [⟨x, y, z⟩], [])
      ∧ borrowFib [x, y, z] = some ⟨x, y, z⟩
      ∧ borrowMutWrite [x, y, z] v = [v.a, v.b, v.c] := by
  intro T x y z v
  exact ⟨rfl, rfl, rfl⟩

/-- C5: a `Proof` consists of exactly the four listed components — the two
commitments, the three opened-value sequences, the PCS opening proof and
`degree_bits` — and nothing else: every proof is the record of its
components, and two proofs are equal iff all seven leaf components agree. -/
theorem C5_proof_has_exactly_four_components :
    ∀ (Com Challenge PcsProof : Type) (p q : Proof Com Challenge PcsProof),
      (p = ⟨⟨p.commitments.trace, p.commitments.quotient_chunks⟩,
            ⟨p.opened_values.trace_local, p.opened_values.trace_next,
             p.opened_values.quotient_chunks⟩,
            p.opening_proof, p.degree_bits⟩)
      ∧ (p = q ↔
          p.commitments.trace = q.commitments.trace
          ∧ p.commitments.quotient_chunks = q.commitments.quotient_chunks
          ∧ p.opened_values.trace_local = q.opened_values.trace_local
          ∧ p.opened_values.trace_next = q.opened_values.trace_next
          ∧ p.opened_values.quotient_chunks = q.opened_values.quotient_chunks
          ∧ p.opening_proof = q.opening_proof
          ∧ p.degree_bits = q.degree_bits) := by
  intro Com Challenge PcsProof p q
  obtain ⟨⟨a1, a2⟩, ⟨b1, b2, b3⟩, c1, d1⟩ := p
  obtain ⟨⟨a4, a5⟩, ⟨b4, b5, b6⟩, c2, d2⟩ := q
  refine ⟨rfl, ?_⟩
  simp [Proof.mk.injEq, Commitments.mk.injEq, OpenedValues.mk.injEq, and_assoc]

/-- C6: proof serialization round-trips with fidelity: deserializing the
serialization of any proof value returns a proof with equal commitments,
opened values, opening proof and degree_bits (modelled from the spec, the
serde wiring being outside `src/`). -/
theorem C6_serialization_round_trip :
    ∀ p : ConcreteProof, decodeProof (encodeProof p) = some p := by
  intro p
  obtain ⟨⟨tr, qc⟩, ⟨tl, tn, qv⟩, op, d⟩ := p
  simp [encodeProof, decodeProof, List.append_assoc, decSeq_encSeq, decNested_enc]

/-- C7: `FibonacciAir` implements the AIR `width()` accessor and it
returns exactly 3 (the constant `NUM_FIBONACCI_COLS`) for every field
type parameter. -/
theorem C7_width_is_three :
    ∀ (F : Type) (air : FibonacciAir),
      FibonacciAir.width F air = 3
      ∧ FibonacciAir.width F air = NUM_FIBONACCI_COLS := by
  intro F air
  exact ⟨rfl, rfl⟩

/-- C8: the generated trace has row 0 equal to `(1,1,2)`, satisfies
`values[i][2] = values[i][0] + values[i][1]` on every row, follows the
recurrence `values[i] = (values[i-1][1], values[i-1][2], values[i-1][1] +
values[i-1][2])`, and the resulting 64-row matrix satisfies every
constraint asserted by `FibonacciAir::eval`. -/
theorem C8_trace_satisfies_every_eval_constraint :
    traceRow 0 = [1, 1, 2]
    ∧ (∀ i : Fin NUM_FIBONACCI_ROWS, traceVal i 2 = traceVal i 0 + traceVal i 1)
    ∧ (∀ i : Fin (NUM_FIBONACCI_ROWS - 1),
        traceRow (i + 1) = [traceVal i 1, traceVal i 2, traceVal i 1 + traceVal i 2])
    ∧ (∀ i : Fin NUM_FIBONACCI_ROWS, evalConstraintsHoldAt i) := by
  exact ⟨rfl, by decide, by decide, by decide⟩

/-- C9: every trace value is bounded by the 66th Fibonacci number, which
is below `2^46`, itself below the Goldilocks modulus; hence the loop's
`u64` additions never overflow and `from_canonical_u64` is the identity —
in particular injective — on the trace values. -/
theorem C9_trace_values_bounded_and_canonical :
    (∀ i : Fin NUM_FIBONACCI_ROWS, ∀ j : Fin NUM_FIBONACCI_COLS,
      traceVal i j ≤ Nat.fib 66)
    ∧ Nat.fib 66 < 2 ^ 46
    ∧ 2 ^ 46 < gp
    ∧ (∀ i : Fin (NUM_FIBONACCI_ROWS - 1), traceVal i 1 + traceVal i 2 < 2 ^ 64)
    ∧ (∀ i : Fin NUM_FIBONACCI_ROWS, ∀ j : Fin NUM_FIBONACCI_COLS,
        fromCanonicalU64 (traceVal i j) = traceVal i j)
    ∧ (∀ i i' : Fin NUM_FIBONACCI_ROWS, ∀ j j' : Fin NUM_FIBONACCI_COLS,
        fromCanonicalU64 (traceVal i j) = fromCanonicalU64 (traceVal i' j') →
          traceVal i j = traceVal i' j') := by
  have hcanon : ∀ i : Fin NUM_FIBONACCI_ROWS, ∀ j : Fin NUM_FIBONACCI_COLS,
      fromCanonicalU64 (traceVal i j) = traceVal i j := by decide
  refine ⟨by decide, by decide, by decide, by decide, hcanon, ?_⟩
  intro i i' j j' h
  rw [hcanon i j, hcanon i' j'] at h
  exact h

end P3Fib

namespace P3Fib

/-! ### Helper lemmas: public-value independence of the evaluators -/

/-- A constraint that reads no public value evaluates in the polynomial
ring independently of the public values. -/
theorem evalP_pv_free (n : Nat) (asg : FibVar → PolyE) (pv pv' : Nat → Nat)
    (e : AirExpr) (h : e.readsPublic = false) :
    e.evalP n asg pv = e.evalP n asg pv' := by
  induction e <;> simp_all [AirExpr.evalP, AirExpr.readsPublic]

/-- A constraint that reads no public value evaluates at a point
independently of the public values. -/
theorem evalPt_pv_free (selF selT : EF) (asg : FibVar → EF) (pv pv' : Nat → Nat)
    (e : AirExpr) (h : e.readsPublic = false) :
    e.evalPt selF selT asg pv = e.evalPt selF selT asg pv' := by
  induction e <;> simp_all [AirExpr.evalPt, AirExpr.readsPublic]

/-- No constraint of `FibonacciAir::eval` reads a public value. -/
theorem fibConstraints_pv_free :
    ∀ e ∈ fibConstraints, AirExpr.readsPublic e = false := by decide

/-- The Fibonacci constraint-composition polynomials are independent of
the public values (normal form: public values all zero). -/
theorem constraintPolys_fib_pv (n : Nat) (asg : FibVar → PolyE) (pv : Nat → Nat) :
    constraintPolys fibConstraints n asg pv =
      constraintPolys fibConstraints n asg (fun _ => 0) := by
  unfold constraintPolys
  exact List.map_congr_left
    (fun e he => evalP_pv_free n asg pv (fun _ => 0) e (fibConstraints_pv_free e he))

/-- The Fibonacci constraint values at the out-of-domain point are
independent of the public values (normal form: public values all zero). -/
theorem constraintVals_fib_pv (selF selT : EF) (asg : FibVar → EF) (pv : Nat → Nat) :
    constraintVals fibConstraints selF selT asg pv =
      constraintVals fibConstraints selF selT asg (fun _ => 0) := by
  unfold constraintVals
  exact List.map_congr_left
    (fun e he => evalPt_pv_free selF selT asg pv (fun _ => 0) e (fibConstraints_pv_free e he))

/-- C10: `FibonacciAir::eval` never reads public values — none of its
constraints contains the public-value accessor — and consequently, for
the modelled pipeline with any fixed trace, proof and challenger
initialization, `prove` and `verify` return identical results on any two
public-value vectors; in particular the proof binds no claimed Fibonacci
output value. -/
theorem C10_public_values_never_read :
    (∀ e ∈ fibConstraints, AirExpr.readsPublic e = false)
    ∧ (∀ (trace : RowMajorMatrix) (pv pv' : List Nat),
        prove fibConstraints trace pv = prove fibConstraints trace pv')
    ∧ (∀ (pf : ProofE) (pv pv' : List Nat),
        verify fibConstraints NUM_FIBONACCI_COLS pf pv =
          verify fibConstraints NUM_FIBONACCI_COLS pf pv') := by
  refine ⟨fibConstraints_pv_free, ?_, ?_⟩
  · intro trace pv pv'
    simp only [prove, constraintPolys_fib_pv]
  · intro pf pv pv'
    simp only [verify, oodOk, constraintVals_fib_pv]

set_option maxRecDepth 1000000 in
/-- C1: in the concrete scenario of the spec — `FibonacciAir` on the
64-row trace generated from `(1,1,2)`, Goldilocks base field, degree-2
extension challenge field, empty public values, prover and verifier
Challengers both fresh — `prove` followed by `verify` returns `Ok`. -/
theorem C1_prove_verify_ok :
    verify fibConstraints NUM_FIBONACCI_COLS
      (prove fibConstraints fibTraceMatrix []) [] = Except.ok () := rfl

end P3Fib

namespace P3Fib

/-- The shape check reads only the opened values, so it ignores the
opening proof component. -/
theorem shapeOk_ignores_opening_proof (w : Nat) (pf : ProofE)
    (d : List Nat × List Nat) :
    shapeOk w { pf with opening_proof := d } = shapeOk w pf := rfl

/-- The out-of-domain check reads only the commitments, the opened values
and `degree_bits`, so it ignores the opening proof component. -/
theorem oodOk_ignores_opening_proof (air : List AirExpr) (pf : ProofE)
    (d : List Nat × List Nat) (pv : List Nat) :
    oodOk air { pf with opening_proof := d } pv = oodOk air pf pv := rfl

set_option maxRecDepth 1000000 in
/-- The honest Fibonacci proof passes the shape check. -/
theorem fibProof_shapeOk :
    shapeOk NUM_FIBONACCI_COLS (prove fibConstraints fibTraceMatrix []) = true := rfl

set_option maxRecDepth 1000000 in
/-- The honest Fibonacci proof passes the out-of-domain identity check. -/
theorem fibProof_oodOk :
    oodOk fibConstraints (prove fibConstraints fibTraceMatrix []) [] = true := rfl

set_option maxRecDepth 1000000 in
/-- C2: in the concrete Fibonacci scenario, corrupting the value of
column `b` of row 10 of the committed trace data consumed by verification
to any different field element makes `verify` return an error (the
commitment-binding failure `RootMismatch`). -/
theorem C2_corrupting_row10_b_fails_verification :
    ∀ x : Nat, x < gp → x ≠ traceVal 10 1 →
      verify fibConstraints NUM_FIBONACCI_COLS
        (corruptRow10B (prove fibConstraints fibTraceMatrix []) x) [] =
      Except.error VerificationError.RootMismatch := by
  intro x _hlt hne
  have hShape : shapeOk NUM_FIBONACCI_COLS
      (corruptRow10B (prove fibConstraints fibTraceMatrix []) x) = true :=
    (shapeOk_ignores_opening_proof NUM_FIBONACCI_COLS
      (prove fibConstraints fibTraceMatrix []) _).trans fibProof_shapeOk
  have hOod : oodOk fibConstraints
      (corruptRow10B (prove fibConstraints fibTraceMatrix []) x) [] = true :=
    (oodOk_ignores_opening_proof fibConstraints
      (prove fibConstraints fibTraceMatrix []) _ []).trans fibProof_oodOk
  have hproj : (corruptRow10B (prove fibConstraints fibTraceMatrix []) x).opening_proof.1 =
      fibTraceMatrix.values.set 31 x := rfl
  have hcommit : (corruptRow10B (prove fibConstraints fibTraceMatrix []) x).commitments.trace =
      fibTraceMatrix.values := rfl
  have hgetD : (fibTraceMatrix.values.set 31 x).getD 31 0 = x := by
    rw [List.getD_eq_getElem?_getD, List.getElem?_set_self, Option.getD_some]
    decide
  have hne2 : fibTraceMatrix.values.set 31 x ≠ fibTraceMatrix.values := by
    intro heq
    apply hne
    have h31 := congrArg (fun l => l.getD 31 0) heq
    simp only at h31
    rw [hgetD] at h31
    rw [h31]
    decide
  have hb : (fibTraceMatrix.values.set 31 x == fibTraceMatrix.values) = false :=
    beq_eq_false_iff_ne.mpr hne2
  unfold verify
  rw [hShape, hOod]
  simp only [eq_self_iff_true, if_true]
  unfold pcsVerify
  rw [hproj, hcommit, hb]
  rfl

end P3Fib

namespace P3Fib

/-- Witness for C2: the corruption of row 10's `b` (original value 144)
to the concrete field element 0 is rejected with `RootMismatch`. -/
theorem C2_corrupting_row10_b_fails_verification_witness :
    (0 : Nat) < gp ∧ (0 : Nat) ≠ traceVal 10 1 ∧
      verify fibConstraints NUM_FIBONACCI_COLS
        (corruptRow10B (prove fibConstraints fibTraceMatrix []) 0) [] =
      Except.error VerificationError.RootMismatch :=
  ⟨by decide, by decide,
   C2_corrupting_row10_b_fails_verification 0 (by decide) (by decide)⟩

end P3Fib
